import Mathlib

/-!
# Flanders: ingestion pipeline and MongoDB backend

A shallow embedding of `processPacket` (packet.go) and of `MongoDb.Find` and
`MongoDb.SetupSchema` (db/mongo/mongo.go), with the properties of the
specification stated over them.

Conventions of the embedding:

* a Go pointer that may be nil is an `Option`; dereferencing `none` is a
  run-time panic;
* a Go `error` is an `Option String` holding the text of `Error()`; `none` is
  the nil error;
* effects on the outside world (channel sends, `Save`, driver calls) are
  recorded, in program order, in a trace that is returned with the result;
* the collaborators that live outside the two source files (the HEP/SIP
  decoder, `time.Now`, `time.Parse`, `db.NewDbObject`, `DbObject.Save`, the
  mgo driver) are parameters.
-/

namespace Flanders

set_option linter.dupNamespace false

/-! ## Go runtime -/

/-- Two's-complement wrap of an integer into the range of Go's `int64`. -/
def wrapInt64 (x : Int) : Int :=
  (x + 9223372036854775808) % 18446744073709551616 - 9223372036854775808

/-- A `time.Time`, as the pair Go keeps: seconds since the Unix epoch and the
nanosecond within that second. -/
structure Time where
  sec : Int
  nsec : Int
  deriving DecidableEq, Repr

/-- Go `time.Unix(sec, nsec)`: an `nsec` outside `[0, 999999999]` is carried
into the seconds. `/` on `int64` truncates toward zero. -/
def Time.Unix (sec nsec : Int) : Time :=
  if nsec < 0 ∨ nsec ≥ 1000000000 then
    let n := Int.tdiv nsec 1000000000
    let sec1 := wrapInt64 (sec + n)
    let nsec1 := wrapInt64 (nsec - wrapInt64 (n * 1000000000))
    if nsec1 < 0 then
      ⟨wrapInt64 (sec1 - 1), wrapInt64 (nsec1 + 1000000000)⟩
    else
      ⟨sec1, nsec1⟩
  else
    ⟨sec, nsec⟩

/-- Go `Time.Nanosecond()`. -/
def Time.Nanosecond (t : Time) : Int := t.nsec

/-- The instant of a `Time` as a number of nanoseconds since the Unix epoch. -/
def Time.unixNano (t : Time) : Int := t.sec * 1000000000 + t.nsec

/-! ## packet.go -/

/-- The `sipparser.StartLine` fields read by `processPacket`. -/
structure StartLine where
  Method : String
  Resp : String
  RespText : String
  deriving DecidableEq, Repr

/-- The `sipparser.Cseq` fields read by `processPacket`. -/
structure Cseq where
  Method : String
  Val : String
  deriving DecidableEq, Repr

/-- The `sipparser.URI` fields read by `processPacket`. -/
structure URI where
  User : String
  Host : String
  deriving DecidableEq, Repr

/-- The `sipparser.From` fields read by `processPacket` (`To` has the same
type); `URI` is a pointer. -/
structure From where
  URI : Option URI
  Tag : String
  deriving DecidableEq, Repr

/-- One element of `SipMsg.Headers`. -/
structure Header where
  Header : String
  Val : String
  deriving DecidableEq, Repr

/-- The `sipparser.SipMsg` fields read by `processPacket`. `StartLine` and
`Cseq` are compared with nil in the source, so they are pointers; `From` and
`To` are pointers in the parser's declaration. -/
structure SipMsg where
  StartLine : Option StartLine
  Cseq : Option Cseq
  CallId : String
  From : Option Flanders.From
  To : Option Flanders.From
  UserAgent : String
  Headers : List Header
  Msg : String
  deriving DecidableEq, Repr

/-- The `hep.HepMsg` fields read by `processPacket`. The two timestamps are
unsigned integers (32 bits wide in the HEP package). -/
structure HepMsg where
  Timestamp : Nat
  TimestampMicro : Nat
  Ip4SourceAddress : String
  SourcePort : Nat
  Ip4DestinationAddress : String
  DestinationPort : Nat
  SipMsg : Option SipMsg
  deriving DecidableEq, Repr

/-- The `db.DbObject` fields written by `processPacket`. -/
structure DbObject where
  Datetime : Time
  MicroSeconds : Int
  Method : String
  ReplyReason : String
  SourceIp : String
  SourcePort : Nat
  DestinationIp : String
  DestinationPort : Nat
  CallId : String
  CallIdAleg : String
  FromUser : String
  FromDomain : String
  FromTag : String
  ToUser : String
  ToDomain : String
  ToTag : String
  UserAgent : String
  Cseq : String
  Msg : String
  deriving DecidableEq, Repr

/-- What `hep.NewHepMsg(packet)` can do: panic inside the parser, return an
error, or return a message. -/
inductive Decoded where
  | panic
  | fail (err : String)
  | ok (hepMsg : HepMsg)
  deriving DecidableEq, Repr

/-- The collaborators of `processPacket`. -/
structure Env where
  /-- The decoder `hep.NewHepMsg`. -/
  NewHepMsg : List Nat → Decoded
  /-- The value `time.Now()` returns during the call. -/
  Now : Time
  /-- The object `db.NewDbObject()` returns. -/
  NewDbObject : DbObject
  /-- The result of `dbObject.Save()`: nil, or the error's text. -/
  Save : DbObject → Option String

/-- An observable effect of `processPacket`. -/
inductive Event where
  /-- A value sent on the channel `h.broadcast`. -/
  | broadcast (o : DbObject)
  /-- A call of `Save` on the object. -/
  | save (o : DbObject)
  deriving DecidableEq, Repr

/-- How the body of a Go function ends: by a `return`, or by a panic. -/
inductive Flow where
  | ret (err : Option String)
  | panic
  deriving DecidableEq, Repr

/-- The result of one call of `processPacket`: the returned error, the effects
in program order, and whether the deferred `recover` caught a panic. -/
structure Run where
  err : Option String
  events : List Event
  recovered : Bool
  deriving DecidableEq, Repr

/-- Lines 55-62 of packet.go: the capture time embedded in the message when it
is not zero, else the current time. The conversions `int64(...)` and the
product are taken in `int64`. -/
def captureTime (env : Env) (hepMsg : HepMsg) : Time :=
  if hepMsg.Timestamp ≠ 0 then
    Time.Unix (wrapInt64 hepMsg.Timestamp)
      (wrapInt64 (wrapInt64 hepMsg.TimestampMicro * 1000))
  else env.Now

/-- Lines 64-88 of packet.go, once every pointer they dereference is known not
to be nil: the assignments to the fields of the fresh object, in source
order. The loop over the headers keeps the value of the last header named
exactly `x-cid`. -/
def fillDbObject (env : Env) (hepMsg : HepMsg) (sipMsg : SipMsg)
    (startLine : StartLine) (frm : From) (fromURI : URI) (tto : From)
    (toURI : URI) (cseq : Cseq) : DbObject :=
  let datetime := captureTime env hepMsg
  { env.NewDbObject with
    Datetime := datetime
    MicroSeconds := Int.tdiv datetime.Nanosecond 1000
    Method := startLine.Method ++ startLine.Resp
    ReplyReason := startLine.RespText
    SourceIp := hepMsg.Ip4SourceAddress
    SourcePort := hepMsg.SourcePort
    DestinationIp := hepMsg.Ip4DestinationAddress
    DestinationPort := hepMsg.DestinationPort
    CallId := sipMsg.CallId
    FromUser := fromURI.User
    FromDomain := fromURI.Host
    FromTag := frm.Tag
    ToUser := toURI.User
    ToDomain := toURI.Host
    ToTag := tto.Tag
    UserAgent := sipMsg.UserAgent
    Cseq := cseq.Val
    CallIdAleg :=
      sipMsg.Headers.foldl
        (fun callIdAleg header =>
          if header.Header = "x-cid" then header.Val else callIdAleg)
        env.NewDbObject.CallIdAleg
    Msg := sipMsg.Msg }

/-- The body of `processPacket` (packet.go lines 22-97), without the deferred
`recover`. The nil dereferences of lines 75-82 (`From`, `From.URI`, `To`,
`To.URI`, `Cseq`) all come before the first effect; they are checked in source
order and the assignments are then made by `fillDbObject`. The channel send is
taken to complete. -/
def processPacketBody (env : Env) (packet : List Nat) : List Event × Flow :=
  match env.NewHepMsg packet with
  | .panic => ([], .panic)
  | .fail err => ([], .ret (some ("Unable to parse packet: " ++ err)))
  | .ok hepMsg =>
    match hepMsg.SipMsg with
    | none => ([], .ret none)
    | some sipMsg =>
      match sipMsg.StartLine with
      | none => ([], .ret none)
      | some startLine =>
        if startLine.Method = "OPTIONS" then ([], .ret none)
        else if startLine.Method = "SUBSCRIBE" then ([], .ret none)
        else if startLine.Method = "NOTIFY" then ([], .ret none)
        else if startLine.Method = "REGISTER" then ([], .ret none)
        else
          let cseqDrop : Bool :=
            match sipMsg.Cseq with
            | none => false
            | some cseq =>
              if cseq.Method = "OPTIONS" then true
              else if cseq.Method = "SUBSCRIBE" then true
              else if cseq.Method = "NOTIFY" then true
              else if cseq.Method = "REGISTER" then true
              else false
          if cseqDrop then ([], .ret none)
          else
            match sipMsg.From with
            | none => ([], .panic)
            | some frm =>
              match frm.URI with
              | none => ([], .panic)
              | some fromURI =>
                match sipMsg.To with
                | none => ([], .panic)
                | some tto =>
                  match tto.URI with
                  | none => ([], .panic)
                  | some toURI =>
                    match sipMsg.Cseq with
                    | none => ([], .panic)
                    | some cseq =>
                      let dbObject :=
                        fillDbObject env hepMsg sipMsg startLine frm fromURI
                          tto toURI cseq
                      match env.Save dbObject with
                      | some err =>
                        ([.broadcast dbObject, .save dbObject],
                          .ret (some ("unable to save sip message: " ++ err)))
                      | none =>
                        ([.broadcast dbObject, .save dbObject], .ret none)

/-- The function `processPacket` of packet.go: the body under its deferred
`recover`. A recovered panic makes the function return the zero value of its
result, the nil error; the effects made before the panic stay. -/
def processPacket (env : Env) (packet : List Nat) : Run :=
  match processPacketBody env packet with
  | (events, .ret err) => { err := err, events := events, recovered := false }
  | (events, .panic) => { err := none, events := events, recovered := true }

/-! ## db/mongo/mongo.go -/

/-- The constant `DB_NAME`. -/
def DB_NAME : String := "flanders"

/-- The constant `DATA_EXPIRATION`, in days. -/
def DATA_EXPIRATION : Int := 7

/-- Go `time.Hour`, a `time.Duration` in nanoseconds. -/
def Hour : Int := 3600000000000

/-- The values `Find` stores in the `conditions` document. -/
inductive Clause where
  /-- The plain value of an equality filter: `conditions[key] = val`. -/
  | eq (val : String)
  /-- The document `bson.M{"$gte": t}`. -/
  | gte (t : Time)
  /-- The document `bson.M{"$lt": t}`. -/
  | lt (t : Time)
  /-- The document `bson.M{"$regex": bson.RegEx{Pattern, Options}}`. -/
  | regex (Pattern : String) (Options : String)
  deriving DecidableEq, Repr

/-- A `bson.M` document: a Go map from field name to value, kept as a list
with at most one entry for a key. -/
abbrev BsonM := List (String × Clause)

/-- Go `m[key] = val`: replaces the entry of the key, or adds one. -/
def BsonM.set : BsonM → String → Clause → BsonM
  | [], key, val => [(key, val)]
  | (k, v) :: rest, key, val =>
    if k = key then (key, val) :: rest else (k, v) :: BsonM.set rest key val

/-- Go `m[key]`, with `none` for a missing key. -/
def BsonM.get : BsonM → String → Option Clause
  | [], _ => none
  | (k, v) :: rest, key => if k = key then some v else BsonM.get rest key

/-- The `db.Filter` argument of `Find`. The two maps are given as the list of
their entries in the order the `range` loop visits them. -/
structure Filter where
  StartDate : String
  EndDate : String
  Equals : List (String × String)
  Like : List (String × String)
  deriving DecidableEq, Repr

/-- The `db.Options` argument of `Find`. -/
structure Options where
  Limit : Int
  /-- The field `Sort` of the source. -/
  SortFields : List String
  deriving DecidableEq, Repr

/-- The `db.DbResult` of a query. -/
abbrev DbResult := List DbObject

/-- A call on the mgo driver. -/
inductive Call where
  /-- The handle `m.connection.DB(db).C(coll)`. -/
  | collection (db : String) (coll : String)
  /-- The call `collection.Find(conditions)`. -/
  | find (conditions : BsonM)
  /-- The call `query.Limit(n)`. -/
  | limit (n : Int)
  /-- The call `query.Sort(fields...)`. -/
  | sort (fields : List String)
  /-- The call `query.All(&result)`. -/
  | all
  deriving DecidableEq, Repr

/-- The state of an `mgo.Query` when it is executed. -/
structure Query where
  conditions : BsonM
  limit : Option Int
  sort : List String
  deriving DecidableEq, Repr

/-- The result of one call of `Find`: the two returned values (a nil result is
`none`) and the driver calls made, in program order. -/
structure FindRun where
  result : Option DbResult
  err : Option String
  calls : List Call
  deriving DecidableEq, Repr

/-- Lines 49-76 of mongo.go: the `conditions` document `Find` builds from the
filter, or the error it returns when a supplied date does not parse. `parse`
is `time.Parse(time.RFC3339, ·)`, with `none` for a parse error. The two
`fmt.Print` calls write to the standard output only and are left out. -/
def buildConditions (parse : String → Option Time) (filter : Filter) :
    Except String BsonM :=
  let conditions : BsonM := []
  let afterStart : Except String BsonM :=
    if filter.StartDate ≠ "" then
      match parse filter.StartDate with
      | none => .error "Could not parse `Start Date` from filters"
      | some startDate => .ok (conditions.set "datetime" (.gte startDate))
    else .ok conditions
  match afterStart with
  | .error err => .error err
  | .ok conditions =>
    let afterEnd : Except String BsonM :=
      if filter.EndDate ≠ "" then
        match parse filter.EndDate with
        | none => .error "Could not parse `End Date` from filters"
        | some endDate => .ok (conditions.set "datetime" (.lt endDate))
      else .ok conditions
    match afterEnd with
    | .error err => .error err
    | .ok conditions =>
      let conditions :=
        filter.Equals.foldl (fun c kv => c.set kv.1 (.eq kv.2)) conditions
      let conditions :=
        filter.Like.foldl
          (fun c kv => c.set kv.1 (.regex ("\\" ++ kv.2 ++ "\\") ""))
          conditions
      .ok conditions

/-- The method `MongoDb.Find` (mongo.go lines 45-98). `All` is the driver's
`query.All(&result)`: from the query it gives the value left in `result`
(starting from nil) and the returned error, which line 95 does not read. -/
def Find (parse : String → Option Time)
    (All : Query → Option DbResult × Option String)
    (filter : Filter) (options : Options) : FindRun :=
  let collection : List Call := [Call.collection DB_NAME "message"]
  match buildConditions parse filter with
  | .error err => { result := none, err := some err, calls := collection }
  | .ok conditions =>
    let query : Query := { conditions := conditions, limit := none, sort := [] }
    let calls := collection ++ [Call.find conditions]
    let (query, calls) :=
      if options.Limit ≠ 0 then
        ({ query with limit := some options.Limit },
          calls ++ [Call.limit options.Limit])
      else (query, calls)
    let (query, calls) :=
      if options.SortFields.length ≠ 0 then
        ({ query with sort := options.SortFields },
          calls ++ [Call.sort options.SortFields])
      else
        ({ query with sort := ["-datetime"] }, calls ++ [Call.sort ["-datetime"]])
    let result := (All query).1
    { result := result, err := none, calls := calls ++ [Call.all] }

/-- The `mgo.Index` fields set by `SetupSchema`; `ExpireAfter` is a
`time.Duration` in nanoseconds, zero meaning no expiration. -/
structure Index where
  Key : List String
  Unique : Bool
  DropDups : Bool
  Background : Bool
  Sparse : Bool
  ExpireAfter : Int := 0
  deriving DecidableEq, Repr

/-- The result of one call of `SetupSchema`: the returned error, the indexes
handed to `EnsureIndex` in program order, and the backend state left. -/
structure SchemaRun (σ : Type) where
  err : Option String
  requested : List Index
  state : σ

/-- The method `MongoDb.SetupSchema` (mongo.go lines 138-227). `EnsureIndex`
is the driver call on the `message` collection: from the backend state and the
index it gives the new state and the returned error. -/
def SetupSchema {σ : Type} (EnsureIndex : σ → Index → σ × Option String)
    (s : σ) : SchemaRun σ :=
  let callidIndex : Index :=
    { Key := ["callid"], Unique := false, DropDups := false,
      Background := true, Sparse := false }
  match EnsureIndex s callidIndex with
  | (s, some err) => ⟨some err, [callidIndex], s⟩
  | (s, none) =>
  let callidalegIndex : Index :=
    { Key := ["callidaleg"], Unique := false, DropDups := false,
      Background := true, Sparse := false }
  match EnsureIndex s callidalegIndex with
  | (s, some err) => ⟨some err, [callidIndex, callidalegIndex], s⟩
  | (s, none) =>
  let touserIndex : Index :=
    { Key := ["touser"], Unique := false, DropDups := false,
      Background := true, Sparse := false }
  match EnsureIndex s touserIndex with
  | (s, some err) => ⟨some err, [callidIndex, callidalegIndex, touserIndex], s⟩
  | (s, none) =>
  let fromuserIndex : Index :=
    { Key := ["fromuser"], Unique := false, DropDups := false,
      Background := true, Sparse := false }
  match EnsureIndex s fromuserIndex with
  | (s, some err) =>
    ⟨some err, [callidIndex, callidalegIndex, touserIndex, fromuserIndex], s⟩
  | (s, none) =>
  let fromdomainIndex : Index :=
    { Key := ["sourceip"], Unique := false, DropDups := false,
      Background := true, Sparse := false }
  match EnsureIndex s fromdomainIndex with
  | (s, some err) =>
    ⟨some err, [callidIndex, callidalegIndex, touserIndex, fromuserIndex,
      fromdomainIndex], s⟩
  | (s, none) =>
  let todomainIndex : Index :=
    { Key := ["destinationip"], Unique := false, DropDups := false,
      Background := true, Sparse := false }
  match EnsureIndex s todomainIndex with
  | (s, some err) =>
    ⟨some err, [callidIndex, callidalegIndex, touserIndex, fromuserIndex,
      fromdomainIndex, todomainIndex], s⟩
  | (s, none) =>
  let datetimeIndex : Index :=
    { Key := ["datetime"], Unique := false, DropDups := false,
      Background := true, Sparse := false,
      ExpireAfter := wrapInt64 (wrapInt64 (DATA_EXPIRATION * 24) * Hour) }
  match EnsureIndex s datetimeIndex with
  | (s, some err) =>
    ⟨some err, [callidIndex, callidalegIndex, touserIndex, fromuserIndex,
      fromdomainIndex, todomainIndex, datetimeIndex], s⟩
  | (s, none) =>
    ⟨none, [callidIndex, callidalegIndex, touserIndex, fromuserIndex,
      fromdomainIndex, todomainIndex, datetimeIndex], s⟩

/-! ## Vocabulary of the specification -/

/-- The drop-set of the specification: the methods excluded from storage. -/
def dropSet : List String := ["OPTIONS", "SUBSCRIBE", "NOTIFY", "REGISTER"]

/-- An index of the specification without expiration: one key, not unique,
built in the background, not sparse. -/
def plainIndex (key : String) : Index :=
  { Key := [key], Unique := false, DropDups := false, Background := true,
    Sparse := false }

/-- The required indexes of the specification, in the order it fixes; the
last one carries the retention window of 7 days, that is 168 hours. -/
def requiredIndexes : List Index :=
  [plainIndex "callid", plainIndex "callidaleg", plainIndex "touser",
    plainIndex "fromuser", plainIndex "sourceip", plainIndex "destinationip",
    { plainIndex "datetime" with ExpireAfter := 168 * Hour }]

/-- The outcomes of the backend: what `EnsureIndex` answers to each index of
the list when they are requested one after the other from the given state. -/
def outcomes {σ : Type} (EnsureIndex : σ → Index → σ × Option String) :
    σ → List Index → List (Option String)
  | _, [] => []
  | s, ix :: rest =>
    (EnsureIndex s ix).2 :: outcomes EnsureIndex (EnsureIndex s ix).1 rest

/-- The reading of the specification: request the indexes of a list in order
and stop at the first failure, returning it. `done` holds the indexes
requested so far. -/
def ensureInOrder {σ : Type} (EnsureIndex : σ → Index → σ × Option String) :
    σ → List Index → List Index → SchemaRun σ
  | s, [], done => ⟨none, done, s⟩
  | s, ix :: rest, done =>
    match EnsureIndex s ix with
    | (s2, some err) => ⟨some err, done ++ [ix], s2⟩
    | (s2, none) => ensureInOrder EnsureIndex s2 rest (done ++ [ix])

/-! ## Sample inputs -/

/-- A zero-valued `DbObject`. -/
def zeroDbObject : DbObject :=
  { Datetime := ⟨0, 0⟩, MicroSeconds := 0, Method := "", ReplyReason := "",
    SourceIp := "", SourcePort := 0, DestinationIp := "", DestinationPort := 0,
    CallId := "", CallIdAleg := "", FromUser := "", FromDomain := "",
    FromTag := "", ToUser := "", ToDomain := "", ToTag := "", UserAgent := "",
    Cseq := "", Msg := "" }

/-- A start line of an INVITE request. -/
def inviteLine : StartLine := { Method := "INVITE", Resp := "", RespText := "" }

/-- A CSeq header of an INVITE request. -/
def inviteCseq : Cseq := { Method := "INVITE", Val := "1 INVITE" }

/-- The URI of the sample `From` header. -/
def sampleFromURI : URI := { User := "alice", Host := "a.example" }

/-- The URI of the sample `To` header. -/
def sampleToURI : URI := { User := "bob", Host := "b.example" }

/-- A `From` header value. -/
def sampleFrom : From := { URI := some sampleFromURI, Tag := "t1" }

/-- A `To` header value. -/
def sampleTo : From := { URI := some sampleToURI, Tag := "t2" }

/-- A parsed SIP message with the given start line and CSeq header. -/
def sampleSip (startLine : StartLine) (cseq : Option Cseq) : SipMsg :=
  { StartLine := some startLine, Cseq := cseq, CallId := "call-1",
    From := some sampleFrom, To := some sampleTo, UserAgent := "ua",
    Headers := [⟨"x-cid", "leg-1"⟩, ⟨"X-CID", "leg-2"⟩], Msg := "raw" }

/-- A decoded HEP message around `sampleSip`, with the given capture time. -/
def sampleHep (startLine : StartLine) (cseq : Option Cseq) (sec micro : Nat) :
    HepMsg :=
  { Timestamp := sec, TimestampMicro := micro, Ip4SourceAddress := "10.0.0.1",
    SourcePort := 5060, Ip4DestinationAddress := "10.0.0.2",
    DestinationPort := 5061, SipMsg := some (sampleSip startLine cseq) }

/-- Collaborators that decode every packet to the given message and whose
`Save` gives the given result. -/
def sampleEnv (hepMsg : HepMsg) (saveResult : Option String) : Env :=
  { NewHepMsg := fun _ => .ok hepMsg, Now := ⟨1700000000, 0⟩,
    NewDbObject := zeroDbObject, Save := fun _ => saveResult }

/-- A stand-in for `time.Parse(time.RFC3339, ·)` that knows two timestamps
and rejects every other string. -/
def sampleParse (value : String) : Option Time :=
  if value = "2024-01-01T00:00:00Z" then some ⟨1704067200, 0⟩
  else if value = "2024-02-01T00:00:00Z" then some ⟨1706745600, 0⟩
  else none

/-- A backend whose `All` fails with the text "boom" and leaves the result
nil. -/
def failingAll (_ : Query) : Option DbResult × Option String :=
  (none, some "boom")

/-- A backend whose `All` succeeds with an empty result. -/
def emptyAll (_ : Query) : Option DbResult × Option String :=
  (some [], none)

/-- A backend that counts the `EnsureIndex` requests and refuses the fourth
one with the text "denied". -/
def refuseFourth (count : Nat) (_ : Index) : Nat × Option String :=
  (count + 1, if count = 3 then some "denied" else none)

/-! ## Lemmas on the Go runtime -/

/-- A value within the range of `int64` is not changed by the wrap. -/
theorem wrapInt64_of_range (x : Int) (hlo : -9223372036854775808 ≤ x)
    (hhi : x < 9223372036854775808) : wrapInt64 x = x := by
  unfold wrapInt64
  omega

/-- The value of `time.Unix` on a non-negative nanosecond count: the whole
seconds are carried, no `int64` operation overflows. -/
theorem Time.Unix_of_nonneg (sec nsec : Int) (hs0 : 0 ≤ sec)
    (hs : sec < 4611686018427387904) (hn0 : 0 ≤ nsec)
    (hn : nsec < 9223372036854775808) :
    (Time.Unix sec nsec).sec = sec + nsec / 1000000000 ∧
      (Time.Unix sec nsec).nsec = nsec % 1000000000 := by
  unfold Time.Unix
  by_cases hbig : nsec < 0 ∨ nsec ≥ 1000000000
  · have hdiv : Int.tdiv nsec 1000000000 = nsec / 1000000000 :=
      Int.tdiv_eq_ediv hn0 (by decide)
    have hq0 : 0 ≤ nsec / 1000000000 := by omega
    have hq : nsec / 1000000000 < 9223372037 := by omega
    simp only [hbig, if_true, hdiv]
    rw [wrapInt64_of_range (nsec / 1000000000 * 1000000000) (by omega) (by omega),
      wrapInt64_of_range (sec + nsec / 1000000000) (by omega) (by omega),
      wrapInt64_of_range (nsec - nsec / 1000000000 * 1000000000) (by omega) (by omega)]
    have hr : ¬ (nsec - nsec / 1000000000 * 1000000000 < 0) := by omega
    simp only [hr, if_false]
    constructor
    · trivial
    · omega
  · simp only [hbig, if_false]
    constructor <;> omega

/-! ## packet.go: the ingestion pipeline -/

/-- A message whose pointers are all set and whose two methods are outside the
drop-set goes through `processPacket` to the broadcast and to `Save`. -/
theorem processPacket_of_accepted (env : Env) (packet : List Nat)
    (hepMsg : HepMsg) (sipMsg : SipMsg) (startLine : StartLine) (cseq : Cseq)
    (frm : From) (fromURI : URI) (tto : From) (toURI : URI)
    (hdec : env.NewHepMsg packet = .ok hepMsg)
    (hsip : hepMsg.SipMsg = some sipMsg)
    (hline : sipMsg.StartLine = some startLine)
    (hcseq : sipMsg.Cseq = some cseq)
    (hfrom : sipMsg.From = some frm) (hfromURI : frm.URI = some fromURI)
    (hto : sipMsg.To = some tto) (htoURI : tto.URI = some toURI)
    (hmethod : startLine.Method ∉ dropSet)
    (hcmethod : cseq.Method ∉ dropSet) :
    processPacket env packet =
      { err := (env.Save (fillDbObject env hepMsg sipMsg startLine frm fromURI
          tto toURI cseq)).map (fun e => "unable to save sip message: " ++ e),
        events :=
          [.broadcast (fillDbObject env hepMsg sipMsg startLine frm fromURI
              tto toURI cseq),
            .save (fillDbObject env hepMsg sipMsg startLine frm fromURI
              tto toURI cseq)],
        recovered := false } := by
  simp only [dropSet, List.mem_cons, List.mem_singleton, List.not_mem_nil,
    or_false, not_or] at hmethod hcmethod
  obtain ⟨hm1, hm2, hm3, hm4⟩ := hmethod
  obtain ⟨hc1, hc2, hc3, hc4⟩ := hcmethod
  unfold processPacket processPacketBody
  simp only [hdec, hsip, hline, hcseq, hfrom, hfromURI, hto, htoURI, hm1, hm2,
    hm3, hm4, hc1, hc2, hc3, hc4, if_false]
  cases hsave : env.Save (fillDbObject env hepMsg sipMsg startLine frm fromURI
      tto toURI cseq) <;> simp

/-- C1: a decoded message with a parsed SIP body and a start line whose
start-line method, or whose CSeq method when a CSeq header is present, is one
of OPTIONS, SUBSCRIBE, NOTIFY, REGISTER makes `processPacket` return the nil
error with no send on the broadcast channel and no `Save` call. -/
theorem processPacket_drop_set (env : Env) (packet : List Nat)
    (hepMsg : HepMsg) (sipMsg : SipMsg) (startLine : StartLine)
    (hdec : env.NewHepMsg packet = .ok hepMsg)
    (hsip : hepMsg.SipMsg = some sipMsg)
    (hline : sipMsg.StartLine = some startLine)
    (hdrop : startLine.Method ∈ dropSet ∨
      ∃ cseq, sipMsg.Cseq = some cseq ∧ cseq.Method ∈ dropSet) :
    processPacket env packet =
      { err := none, events := [], recovered := false } := by
  simp only [dropSet, List.mem_cons, List.mem_singleton, List.not_mem_nil,
    or_false] at hdrop
  unfold processPacket processPacketBody
  simp only [hdec, hsip, hline]
  rcases hdrop with h | ⟨cseq, hc, h⟩
  · rcases h with h | h | h | h <;> simp [h]
  · simp only [hc]
    rcases h with h | h | h | h <;> simp [h]

/-- C1 at an instance: an INVITE whose CSeq method is NOTIFY is dropped. -/
theorem processPacket_drop_set_witness :
    processPacket
        (sampleEnv (sampleHep inviteLine (some ⟨"NOTIFY", "2 NOTIFY"⟩) 10 20)
          (some "down")) [] =
      { err := none, events := [], recovered := false } :=
  processPacket_drop_set
    (sampleEnv (sampleHep inviteLine (some ⟨"NOTIFY", "2 NOTIFY"⟩) 10 20)
      (some "down")) []
    (sampleHep inviteLine (some ⟨"NOTIFY", "2 NOTIFY"⟩) 10 20)
    (sampleSip inviteLine (some ⟨"NOTIFY", "2 NOTIFY"⟩)) inviteLine rfl rfl rfl
    (Or.inr ⟨⟨"NOTIFY", "2 NOTIFY"⟩, rfl, by decide⟩)

/-- C7: an INVITE that carries no CSeq header, with every other pointer set
and a working `Save`, produces no record: the dereference of the nil `Cseq` on
line 82 panics, the deferred `recover` catches it, and `processPacket` returns
the nil error after no broadcast and no `Save`. -/
theorem processPacket_invite_without_cseq :
    processPacket (sampleEnv (sampleHep inviteLine none 10 20) none) [] =
      { err := none, events := [], recovered := true } := by
  decide

/-- C8: for a message that is made into a record and whose embedded capture
time is s seconds (not zero) and u microseconds, the record's `Datetime` is
the instant s seconds plus u*1000 nanoseconds after the Unix epoch, held as
s + u / 1000000 seconds and a nanosecond part below one second, and
`MicroSeconds` is u mod 1000000, which is u when u < 1000000. The two bounds
keep the `int64` arithmetic exact; every 32-bit s and u is within them. -/
theorem processPacket_capture_time (env : Env) (packet : List Nat)
    (hepMsg : HepMsg) (sipMsg : SipMsg) (startLine : StartLine) (cseq : Cseq)
    (frm : From) (fromURI : URI) (tto : From) (toURI : URI)
    (hdec : env.NewHepMsg packet = .ok hepMsg)
    (hsip : hepMsg.SipMsg = some sipMsg)
    (hline : sipMsg.StartLine = some startLine)
    (hcseq : sipMsg.Cseq = some cseq)
    (hfrom : sipMsg.From = some frm) (hfromURI : frm.URI = some fromURI)
    (hto : sipMsg.To = some tto) (htoURI : tto.URI = some toURI)
    (hmethod : startLine.Method ∉ dropSet)
    (hcmethod : cseq.Method ∉ dropSet)
    (hts : hepMsg.Timestamp ≠ 0)
    (hs62 : hepMsg.Timestamp < 4611686018427387904)
    (hu53 : hepMsg.TimestampMicro < 9007199254740992) :
    ∃ o : DbObject,
      (processPacket env packet).events = [.broadcast o, .save o] ∧
      o.Datetime.unixNano =
        (hepMsg.Timestamp : Int) * 1000000000 + (hepMsg.TimestampMicro : Int) * 1000 ∧
      o.Datetime.sec = (hepMsg.Timestamp : Int) + (hepMsg.TimestampMicro : Int) / 1000000 ∧
      0 ≤ o.Datetime.nsec ∧ o.Datetime.nsec < 1000000000 ∧
      o.MicroSeconds = (hepMsg.TimestampMicro : Int) % 1000000 ∧
      (hepMsg.TimestampMicro < 1000000 →
        o.MicroSeconds = (hepMsg.TimestampMicro : Int) ∧
        o.Datetime = ⟨hepMsg.Timestamp, (hepMsg.TimestampMicro : Int) * 1000⟩) := by
  refine ⟨fillDbObject env hepMsg sipMsg startLine frm fromURI tto toURI cseq,
    ?_, ?_⟩
  · rw [processPacket_of_accepted env packet hepMsg sipMsg startLine cseq frm
      fromURI tto toURI hdec hsip hline hcseq hfrom hfromURI hto htoURI hmethod
      hcmethod]
  · have hs0 : (0 : Int) ≤ (hepMsg.Timestamp : Int) := Int.ofNat_nonneg _
    have hu0 : (0 : Int) ≤ (hepMsg.TimestampMicro : Int) := Int.ofNat_nonneg _
    have hs : (hepMsg.Timestamp : Int) < 4611686018427387904 := by
      exact_mod_cast hs62
    have hu : (hepMsg.TimestampMicro : Int) < 9007199254740992 := by
      exact_mod_cast hu53
    have hw1 : wrapInt64 (hepMsg.Timestamp : Int) = hepMsg.Timestamp :=
      wrapInt64_of_range _ (by omega) (by omega)
    have hw2 : wrapInt64 (hepMsg.TimestampMicro : Int) = hepMsg.TimestampMicro :=
      wrapInt64_of_range _ (by omega) (by omega)
    have hw3 : wrapInt64 ((hepMsg.TimestampMicro : Int) * 1000) =
        (hepMsg.TimestampMicro : Int) * 1000 :=
      wrapInt64_of_range _ (by omega) (by omega)
    obtain ⟨hsec, hnsec⟩ := Time.Unix_of_nonneg (hepMsg.Timestamp : Int)
      ((hepMsg.TimestampMicro : Int) * 1000) hs0 hs (by omega) (by omega)
    have hdt : (fillDbObject env hepMsg sipMsg startLine frm fromURI tto toURI
        cseq).Datetime = Time.Unix (hepMsg.Timestamp : Int)
          ((hepMsg.TimestampMicro : Int) * 1000) := by
      simp only [fillDbObject, captureTime, hts, ne_eq, not_false_eq_true,
        if_true, hw1, hw2, hw3]
    have hmic : (fillDbObject env hepMsg sipMsg startLine frm fromURI tto toURI
        cseq).MicroSeconds = Int.tdiv (Time.Unix (hepMsg.Timestamp : Int)
          ((hepMsg.TimestampMicro : Int) * 1000)).nsec 1000 := by
      simp only [fillDbObject, captureTime, hts, ne_eq, not_false_eq_true,
        if_true, hw1, hw2, hw3, Time.Nanosecond]
    have htd : Int.tdiv (Time.Unix (hepMsg.Timestamp : Int)
          ((hepMsg.TimestampMicro : Int) * 1000)).nsec 1000 =
        (Time.Unix (hepMsg.Timestamp : Int)
          ((hepMsg.TimestampMicro : Int) * 1000)).nsec / 1000 :=
      Int.tdiv_eq_ediv (by rw [hnsec]; omega) (by decide)
    rw [hdt, hmic, htd]
    refine ⟨?_, ?_, ?_, ?_, ?_, ?_⟩
    · unfold Time.unixNano
      rw [hsec, hnsec]
      omega
    · rw [hsec]; omega
    · rw [hnsec]; omega
    · rw [hnsec]; omega
    · rw [hnsec]; omega
    · intro hsmall
      have hsm : (hepMsg.TimestampMicro : Int) < 1000000 := by exact_mod_cast hsmall
      constructor
      · rw [hnsec]; omega
      · have e1 : (Time.Unix (hepMsg.Timestamp : Int)
            ((hepMsg.TimestampMicro : Int) * 1000)).sec = hepMsg.Timestamp := by
          rw [hsec]; omega
        have e2 : (Time.Unix (hepMsg.Timestamp : Int)
            ((hepMsg.TimestampMicro : Int) * 1000)).nsec =
            (hepMsg.TimestampMicro : Int) * 1000 := by
          rw [hnsec]; omega
        cases hx : Time.Unix (hepMsg.Timestamp : Int)
            ((hepMsg.TimestampMicro : Int) * 1000) with
        | mk a b =>
          rw [hx] at e1 e2
          simp only at e1 e2
          rw [e1, e2]

/-- C8 at an instance: 10 seconds and 2000020 microseconds. -/
theorem processPacket_capture_time_witness :
    ∃ o : DbObject,
      (processPacket (sampleEnv (sampleHep inviteLine (some inviteCseq) 10 2000020)
        none) []).events = [.broadcast o, .save o] ∧
      o.Datetime.unixNano = ((10 : Nat) : Int) * 1000000000 + ((2000020 : Nat) : Int) * 1000 ∧
      o.Datetime.sec = ((10 : Nat) : Int) + ((2000020 : Nat) : Int) / 1000000 ∧
      0 ≤ o.Datetime.nsec ∧ o.Datetime.nsec < 1000000000 ∧
      o.MicroSeconds = ((2000020 : Nat) : Int) % 1000000 ∧
      (2000020 < 1000000 →
        o.MicroSeconds = ((2000020 : Nat) : Int) ∧
        o.Datetime = ⟨((10 : Nat) : Int), ((2000020 : Nat) : Int) * 1000⟩) :=
  processPacket_capture_time
    (sampleEnv (sampleHep inviteLine (some inviteCseq) 10 2000020) none) []
    (sampleHep inviteLine (some inviteCseq) 10 2000020)
    (sampleSip inviteLine (some inviteCseq)) inviteLine inviteCseq sampleFrom
    sampleFromURI sampleTo sampleToURI rfl rfl rfl rfl rfl rfl rfl rfl
    (by decide) (by decide) (by decide) (by decide) (by decide)

/-- C9: for a message that is made into a record, `processPacket` sends the
record on the broadcast channel and then calls `Save` on the same record, once
each and in that order; when `Save` fails with an error of text e the
returned error is "unable to save sip message: " followed by e, the broadcast
having been made, and when `Save` succeeds the returned error is nil. -/
theorem processPacket_broadcast_then_save (env : Env) (packet : List Nat)
    (hepMsg : HepMsg) (sipMsg : SipMsg) (startLine : StartLine) (cseq : Cseq)
    (frm : From) (fromURI : URI) (tto : From) (toURI : URI)
    (hdec : env.NewHepMsg packet = .ok hepMsg)
    (hsip : hepMsg.SipMsg = some sipMsg)
    (hline : sipMsg.StartLine = some startLine)
    (hcseq : sipMsg.Cseq = some cseq)
    (hfrom : sipMsg.From = some frm) (hfromURI : frm.URI = some fromURI)
    (hto : sipMsg.To = some tto) (htoURI : tto.URI = some toURI)
    (hmethod : startLine.Method ∉ dropSet)
    (hcmethod : cseq.Method ∉ dropSet) :
    ∃ o : DbObject,
      o = fillDbObject env hepMsg sipMsg startLine frm fromURI tto toURI cseq ∧
      (processPacket env packet).events = [.broadcast o, .save o] ∧
      (processPacket env packet).recovered = false ∧
      (∀ e, env.Save o = some e →
        (processPacket env packet).err =
          some ("unable to save sip message: " ++ e)) ∧
      (env.Save o = none → (processPacket env packet).err = none) := by
  refine ⟨_, rfl, ?_⟩
  rw [processPacket_of_accepted env packet hepMsg sipMsg startLine cseq frm
    fromURI tto toURI hdec hsip hline hcseq hfrom hfromURI hto htoURI hmethod
    hcmethod]
  refine ⟨rfl, rfl, ?_, ?_⟩
  · intro e he
    simp [he]
  · intro he
    simp [he]

/-- C9 at an instance: an INVITE whose `Save` fails with the text "down". -/
theorem processPacket_broadcast_then_save_witness :
    ∃ o : DbObject,
      o = fillDbObject
        (sampleEnv (sampleHep inviteLine (some inviteCseq) 10 20) (some "down"))
        (sampleHep inviteLine (some inviteCseq) 10 20)
        (sampleSip inviteLine (some inviteCseq)) inviteLine sampleFrom
        sampleFromURI sampleTo sampleToURI inviteCseq ∧
      (processPacket
        (sampleEnv (sampleHep inviteLine (some inviteCseq) 10 20) (some "down"))
        []).events = [.broadcast o, .save o] ∧
      (processPacket
        (sampleEnv (sampleHep inviteLine (some inviteCseq) 10 20) (some "down"))
        []).recovered = false ∧
      (∀ e,
        (sampleEnv (sampleHep inviteLine (some inviteCseq) 10 20)
          (some "down")).Save o = some e →
        (processPacket
          (sampleEnv (sampleHep inviteLine (some inviteCseq) 10 20) (some "down"))
          []).err = some ("unable to save sip message: " ++ e)) ∧
      ((sampleEnv (sampleHep inviteLine (some inviteCseq) 10 20)
          (some "down")).Save o = none →
        (processPacket
          (sampleEnv (sampleHep inviteLine (some inviteCseq) 10 20) (some "down"))
          []).err = none) :=
  processPacket_broadcast_then_save
    (sampleEnv (sampleHep inviteLine (some inviteCseq) 10 20) (some "down")) []
    (sampleHep inviteLine (some inviteCseq) 10 20)
    (sampleSip inviteLine (some inviteCseq)) inviteLine inviteCseq sampleFrom
    sampleFromURI sampleTo sampleToURI rfl rfl rfl rfl rfl rfl rfl rfl
    (by decide) (by decide)

/-! ## db/mongo/mongo.go: the `conditions` document -/

theorem BsonM.get_set (m : BsonM) (key : String) (val : Clause) (k : String) :
    (m.set key val).get k = if key = k then some val else m.get k := by
  induction m with
  | nil => simp [BsonM.set, BsonM.get]
  | cons hd tl ih =>
    obtain ⟨k0, v0⟩ := hd
    by_cases h0 : k0 = key
    · subst h0
      by_cases h1 : k0 = k <;> simp [BsonM.set, BsonM.get, h1]
    · by_cases h1 : k0 = k
      · subst h1
        simp [BsonM.set, BsonM.get, h0, Ne.symm h0]
      · simp [BsonM.set, BsonM.get, h0, h1, ih]

/-- A `range` loop of assignments leaves the keys it does not visit alone. -/
theorem get_foldl_set_of_not_mem (f : String → Clause)
    (l : List (String × String)) (m : BsonM) (k : String)
    (hk : ∀ kv ∈ l, kv.1 ≠ k) :
    (l.foldl (fun c kv => c.set kv.1 (f kv.2)) m).get k = m.get k := by
  induction l generalizing m with
  | nil => rfl
  | cons hd tl ih =>
    simp only [List.foldl_cons]
    rw [ih _ (fun kv hkv => hk kv (List.mem_cons_of_mem _ hkv)),
      BsonM.get_set, if_neg (hk hd (List.mem_cons_self _ _))]

/-- A `range` loop of assignments over a map (distinct keys) leaves at each
visited key the value assigned for it. -/
theorem get_foldl_set_of_mem (f : String → Clause)
    (l : List (String × String)) (m : BsonM) (kv : String × String)
    (hnd : (l.map Prod.fst).Nodup) (hmem : kv ∈ l) :
    (l.foldl (fun c kv => c.set kv.1 (f kv.2)) m).get kv.1 = some (f kv.2) := by
  induction l generalizing m with
  | nil => simp at hmem
  | cons hd tl ih =>
    simp only [List.map_cons, List.nodup_cons, List.mem_map, not_exists,
      not_and] at hnd
    simp only [List.foldl_cons]
    rcases List.mem_cons.mp hmem with h | h
    · subst h
      rw [get_foldl_set_of_not_mem f tl _ kv.1
        (fun kv2 hkv2 heq => hnd.1 kv2 hkv2 heq), BsonM.get_set, if_pos rfl]
    · exact ih _ hnd.2 h

/-- A value found after a `range` loop of assignments was assigned by the loop
or was there before it. -/
theorem get_foldl_set_origin (f : String → Clause)
    (l : List (String × String)) (m : BsonM) (k : String) (v : Clause)
    (h : (l.foldl (fun c kv => c.set kv.1 (f kv.2)) m).get k = some v) :
    (∃ kv ∈ l, v = f kv.2) ∨ m.get k = some v := by
  induction l generalizing m with
  | nil => exact Or.inr h
  | cons hd tl ih =>
    simp only [List.foldl_cons] at h
    rcases ih _ h with ⟨kv, hkv, hv⟩ | h2
    · exact Or.inl ⟨kv, List.mem_cons_of_mem _ hkv, hv⟩
    · rw [BsonM.get_set] at h2
      by_cases hk : hd.1 = k
      · rw [if_pos hk] at h2
        exact Or.inl ⟨hd, List.mem_cons_self _ _, (Option.some.inj h2).symm⟩
      · rw [if_neg hk] at h2
        exact Or.inr h2

/-- The trace of `Find` once the conditions are built: the collection handle,
`Find`, `Limit` when the limit is not zero, `Sort`, and `All`. -/
theorem Find_of_conditions (parse : String → Option Time)
    (All : Query → Option DbResult × Option String)
    (filter : Filter) (options : Options) (c : BsonM)
    (hc : buildConditions parse filter = .ok c) :
    (Find parse All filter options).err = none ∧
    (Find parse All filter options).calls =
      [Call.collection DB_NAME "message", Call.find c] ++
        (if options.Limit ≠ 0 then [Call.limit options.Limit] else []) ++
        [Call.sort (if options.SortFields.length ≠ 0 then options.SortFields
          else ["-datetime"]), Call.all] := by
  unfold Find
  simp only [hc]
  by_cases hl : options.Limit = 0 <;> by_cases hs : options.SortFields.length = 0 <;>
    simp [hl, hs]

/-- The conditions handed to `collection.Find` are the ones built. -/
theorem Find_find_mem (parse : String → Option Time)
    (All : Query → Option DbResult × Option String)
    (filter : Filter) (options : Options) (c : BsonM)
    (hc : buildConditions parse filter = .ok c) (c2 : BsonM) :
    Call.find c2 ∈ (Find parse All filter options).calls ↔ c2 = c := by
  rw [(Find_of_conditions parse All filter options c hc).2]
  by_cases hl : options.Limit = 0 <;> simp [hl]

/-- With dates that parse, `buildConditions` succeeds: the two loops run on a
base document that holds the date clause only. -/
theorem buildConditions_of_dates (parse : String → Option Time)
    (filter : Filter)
    (hstart : filter.StartDate ≠ "" → ∃ t, parse filter.StartDate = some t)
    (hend : filter.EndDate ≠ "" → ∃ t, parse filter.EndDate = some t) :
    ∃ base : BsonM,
      buildConditions parse filter =
        .ok (filter.Like.foldl
          (fun c kv => c.set kv.1 (.regex ("\\" ++ kv.2 ++ "\\") ""))
          (filter.Equals.foldl (fun c kv => c.set kv.1 (.eq kv.2)) base)) ∧
      (filter.StartDate = "" → filter.EndDate = "" → base = []) ∧
      (∀ s, filter.StartDate ≠ "" → filter.EndDate = "" →
        parse filter.StartDate = some s → base = [("datetime", .gte s)]) ∧
      (∀ e, filter.EndDate ≠ "" → parse filter.EndDate = some e →
        base = [("datetime", .lt e)]) := by
  unfold buildConditions
  by_cases hs : filter.StartDate = "" <;> by_cases he : filter.EndDate = ""
  · exact ⟨[], by simp [hs, he], fun _ _ => rfl, fun s h => absurd hs h,
      fun e h => absurd he h⟩
  · obtain ⟨e, hpe⟩ := hend he
    refine ⟨[("datetime", .lt e)], by simp [hs, he, hpe, BsonM.set],
      fun _ h => absurd h he, fun s h => absurd hs h, fun e2 _ h2 => ?_⟩
    rw [hpe] at h2
    rw [Option.some.inj h2]
  · obtain ⟨s, hps⟩ := hstart hs
    refine ⟨[("datetime", .gte s)], by simp [hs, he, hps, BsonM.set],
      fun h => absurd h hs, fun s2 _ _ h2 => ?_, fun e h => absurd he h⟩
    rw [hps] at h2
    rw [Option.some.inj h2]
  · obtain ⟨s, hps⟩ := hstart hs
    obtain ⟨e, hpe⟩ := hend he
    refine ⟨[("datetime", .lt e)], by simp [hs, he, hps, hpe, BsonM.set],
      fun h => absurd h hs, fun s2 _ h => absurd h he, fun e2 _ h2 => ?_⟩
    rw [hpe] at h2
    rw [Option.some.inj h2]

/-- C2: when the start date is supplied and does not parse, or the end date is
supplied and does not parse, `Find` returns a nil result with one of its two
date errors, and the only driver call is the collection handle: no `Find`,
`Limit`, `Sort` or `All` call is made, whatever the equality filters, the
patterns and the options. -/
theorem Find_unparsable_date (parse : String → Option Time)
    (All : Query → Option DbResult × Option String)
    (filter : Filter) (options : Options)
    (hbad : (filter.StartDate ≠ "" ∧ parse filter.StartDate = none) ∨
      (filter.EndDate ≠ "" ∧ parse filter.EndDate = none)) :
    (Find parse All filter options).result = none ∧
    ((Find parse All filter options).err =
        some "Could not parse `Start Date` from filters" ∨
      (Find parse All filter options).err =
        some "Could not parse `End Date` from filters") ∧
    (Find parse All filter options).calls =
      [Call.collection DB_NAME "message"] := by
  unfold Find buildConditions
  rcases hbad with ⟨hs, hps⟩ | ⟨he, hpe⟩
  · simp [hs, hps]
  · by_cases hs : filter.StartDate = ""
    · simp [hs, he, hpe]
    · cases hps : parse filter.StartDate <;> simp [hs, he, hpe, hps]

/-- C2 at an instance: a start date that is not a timestamp. -/
theorem Find_unparsable_date_witness :
    (Find sampleParse emptyAll
        ⟨"yesterday", "", [("callid", "a")], [("touser", "b")]⟩
        ⟨10, ["datetime"]⟩).result = none ∧
    ((Find sampleParse emptyAll
        ⟨"yesterday", "", [("callid", "a")], [("touser", "b")]⟩
        ⟨10, ["datetime"]⟩).err =
        some "Could not parse `Start Date` from filters" ∨
      (Find sampleParse emptyAll
        ⟨"yesterday", "", [("callid", "a")], [("touser", "b")]⟩
        ⟨10, ["datetime"]⟩).err =
        some "Could not parse `End Date` from filters") ∧
    (Find sampleParse emptyAll
        ⟨"yesterday", "", [("callid", "a")], [("touser", "b")]⟩
        ⟨10, ["datetime"]⟩).calls =
      [Call.collection DB_NAME "message"] :=
  Find_unparsable_date sampleParse emptyAll
    ⟨"yesterday", "", [("callid", "a")], [("touser", "b")]⟩ ⟨10, ["datetime"]⟩
    (Or.inl ⟨by decide, by decide⟩)

/-- C3: when the supplied dates parse and neither map has the key "datetime",
exactly one conditions document is handed to `collection.Find`, and its
"datetime" entry is absent when no date is supplied, is `$gte` start when only
the start date is supplied, and is `$lt` end whenever the end date is
supplied; in that last case no entry of the document is a `$gte` clause. -/
theorem Find_datetime_clause (parse : String → Option Time)
    (All : Query → Option DbResult × Option String)
    (filter : Filter) (options : Options)
    (hstart : filter.StartDate ≠ "" → ∃ t, parse filter.StartDate = some t)
    (hend : filter.EndDate ≠ "" → ∃ t, parse filter.EndDate = some t)
    (hEquals : ∀ kv ∈ filter.Equals, kv.1 ≠ "datetime")
    (hLike : ∀ kv ∈ filter.Like, kv.1 ≠ "datetime") :
    ∃ c : BsonM,
      (∀ c2, Call.find c2 ∈ (Find parse All filter options).calls ↔ c2 = c) ∧
      (filter.StartDate = "" → filter.EndDate = "" → c.get "datetime" = none) ∧
      (∀ s, filter.StartDate ≠ "" → filter.EndDate = "" →
        parse filter.StartDate = some s → c.get "datetime" = some (.gte s)) ∧
      (∀ e, filter.EndDate ≠ "" → parse filter.EndDate = some e →
        c.get "datetime" = some (.lt e) ∧ ∀ k t, c.get k ≠ some (.gte t)) := by
  obtain ⟨base, hc, h0, h1, h2⟩ :=
    buildConditions_of_dates parse filter hstart hend
  have hE := get_foldl_set_of_not_mem Clause.eq filter.Equals base "datetime"
    hEquals
  have hL := get_foldl_set_of_not_mem
    (fun val => Clause.regex ("\\" ++ val ++ "\\") "") filter.Like
    (filter.Equals.foldl (fun c kv => c.set kv.1 (.eq kv.2)) base) "datetime"
    hLike
  refine ⟨_, Find_find_mem parse All filter options _ hc, ?_, ?_, ?_⟩
  · intro hs he
    rw [hL, hE, h0 hs he]
    rfl
  · intro s hs he hp
    rw [hL, hE, h1 s hs he hp]
    simp [BsonM.get]
  · intro e he hp
    constructor
    · rw [hL, hE, h2 e he hp]
      simp [BsonM.get]
    · intro k t hk
      rcases get_foldl_set_origin
        (fun val => Clause.regex ("\\" ++ val ++ "\\") "") _ _ _ _ hk with
        ⟨kv, _, hv⟩ | hk2
      · cases hv
      · rcases get_foldl_set_origin Clause.eq _ _ _ _ hk2 with ⟨kv, _, hv⟩ | hk3
        · cases hv
        · rw [h2 e he hp] at hk3
          by_cases hd : "datetime" = k <;> simp [BsonM.get, hd] at hk3

/-- C3 at an instance: both dates supplied. -/
theorem Find_datetime_clause_witness :
    ∃ c : BsonM,
      (∀ c2, Call.find c2 ∈ (Find sampleParse emptyAll
        ⟨"2024-01-01T00:00:00Z", "2024-02-01T00:00:00Z", [("callid", "a")],
          [("touser", "b")]⟩ ⟨0, []⟩).calls ↔ c2 = c) ∧
      ("2024-01-01T00:00:00Z" = "" → "2024-02-01T00:00:00Z" = "" →
        c.get "datetime" = none) ∧
      (∀ s, "2024-01-01T00:00:00Z" ≠ "" → "2024-02-01T00:00:00Z" = "" →
        sampleParse "2024-01-01T00:00:00Z" = some s →
        c.get "datetime" = some (.gte s)) ∧
      (∀ e, "2024-02-01T00:00:00Z" ≠ "" →
        sampleParse "2024-02-01T00:00:00Z" = some e →
        c.get "datetime" = some (.lt e) ∧ ∀ k t, c.get k ≠ some (.gte t)) :=
  Find_datetime_clause sampleParse emptyAll
    ⟨"2024-01-01T00:00:00Z", "2024-02-01T00:00:00Z", [("callid", "a")],
      [("touser", "b")]⟩ ⟨0, []⟩
    (fun _ => ⟨⟨1704067200, 0⟩, by decide⟩)
    (fun _ => ⟨⟨1706745600, 0⟩, by decide⟩)
    (by decide) (by decide)

/-- C4, as stated, fails: with the field "callid" in both maps the pattern
clause takes the place of the equality clause in the conditions handed to
`collection.Find`, and the clause callid == "a" is lost. -/
theorem Find_equality_clause_overwritten :
    (Find sampleParse emptyAll ⟨"", "", [("callid", "a")], [("callid", "b")]⟩
        ⟨0, []⟩).calls =
      [Call.collection "flanders" "message",
        Call.find [("callid", Clause.regex "\\b\\" "")],
        Call.sort ["-datetime"], Call.all] ∧
    BsonM.get [("callid", Clause.regex "\\b\\" "")] "callid" ≠
      some (Clause.eq "a") := by
  decide

/-- C4, amended: when the supplied dates parse, exactly one conditions
document is handed to `collection.Find`; it is keyed by field, so it holds a
pattern-match clause on every field of the pattern map, and the clause
field == value for every entry of the equality map whose field is not also a
field of the pattern map. -/
theorem Find_clauses_kept (parse : String → Option Time)
    (All : Query → Option DbResult × Option String)
    (filter : Filter) (options : Options)
    (hstart : filter.StartDate ≠ "" → ∃ t, parse filter.StartDate = some t)
    (hend : filter.EndDate ≠ "" → ∃ t, parse filter.EndDate = some t)
    (hEqualsKeys : (filter.Equals.map Prod.fst).Nodup)
    (hLikeKeys : (filter.Like.map Prod.fst).Nodup) :
    ∃ c : BsonM,
      (∀ c2, Call.find c2 ∈ (Find parse All filter options).calls ↔ c2 = c) ∧
      (∀ kv ∈ filter.Like, ∃ p o, c.get kv.1 = some (.regex p o)) ∧
      (∀ kv ∈ filter.Equals, (∀ kv2 ∈ filter.Like, kv2.1 ≠ kv.1) →
        c.get kv.1 = some (.eq kv.2)) := by
  obtain ⟨base, hc, -, -, -⟩ :=
    buildConditions_of_dates parse filter hstart hend
  refine ⟨_, Find_find_mem parse All filter options _ hc, ?_, ?_⟩
  · intro kv hkv
    exact ⟨_, _, get_foldl_set_of_mem
      (fun val => Clause.regex ("\\" ++ val ++ "\\") "") filter.Like _ kv
      hLikeKeys hkv⟩
  · intro kv hkv hfree
    have hL := get_foldl_set_of_not_mem
      (fun val => Clause.regex ("\\" ++ val ++ "\\") "") filter.Like
      (filter.Equals.foldl (fun c kv => c.set kv.1 (.eq kv.2)) base) kv.1 hfree
    rw [hL]
    exact get_foldl_set_of_mem Clause.eq filter.Equals base kv hEqualsKeys hkv

/-- C4, amended, at an instance: an equality filter and a pattern on two
different fields. -/
theorem Find_clauses_kept_witness :
    ∃ c : BsonM,
      (∀ c2, Call.find c2 ∈ (Find sampleParse emptyAll
        ⟨"2024-01-01T00:00:00Z", "", [("callid", "a")], [("touser", "b")]⟩
        ⟨0, []⟩).calls ↔ c2 = c) ∧
      (∀ kv ∈ [(("touser", "b") : String × String)],
        ∃ p o, c.get kv.1 = some (.regex p o)) ∧
      (∀ kv ∈ [(("callid", "a") : String × String)],
        (∀ kv2 ∈ [(("touser", "b") : String × String)], kv2.1 ≠ kv.1) →
        c.get kv.1 = some (.eq kv.2)) :=
  Find_clauses_kept sampleParse emptyAll
    ⟨"2024-01-01T00:00:00Z", "", [("callid", "a")], [("touser", "b")]⟩ ⟨0, []⟩
    (fun _ => ⟨⟨1704067200, 0⟩, by decide⟩) (fun h => absurd rfl h)
    (by decide) (by decide)

/-- C5: for the pattern "abc" on the field "callid", the regular expression
`Find` hands to the backend is the five characters backslash, a, b, c,
backslash (with empty options), not the three characters of the pattern:
line 75 puts a backslash before and after the value. -/
theorem Find_like_pattern_wrapped :
    (Find sampleParse emptyAll ⟨"", "", [], [("callid", "abc")]⟩ ⟨0, []⟩).calls =
      [Call.collection "flanders" "message",
        Call.find [("callid", Clause.regex "\\abc\\" "")],
        Call.sort ["-datetime"], Call.all] ∧
    ("\\abc\\" : String).length = 5 ∧
    ("\\abc\\" : String) ≠ "abc" := by
  decide

/-- C6: with a backend whose `All` fails with the error "boom", `Find` makes
the query and returns the nil error: line 95 drops the value `All` returns. -/
theorem Find_backend_error_dropped :
    Find sampleParse failingAll ⟨"", "", [], []⟩ ⟨0, []⟩ =
      { result := none, err := none,
        calls := [Call.collection "flanders" "message", Call.find [],
          Call.sort ["-datetime"], Call.all] } ∧
    (failingAll { conditions := [], limit := none, sort := ["-datetime"] }).2 =
      some "boom" := by
  decide

/-! ## db/mongo/mongo.go: schema setup -/

/-- The straight-line code of `SetupSchema` requests the required indexes in
order and stops at the first failure. -/
theorem SetupSchema_eq_ensureInOrder {σ : Type}
    (EnsureIndex : σ → Index → σ × Option String) (s : σ) :
    SetupSchema EnsureIndex s = ensureInOrder EnsureIndex s requiredIndexes [] := by
  have hexp : wrapInt64 (wrapInt64 (DATA_EXPIRATION * 24) * Hour) = 168 * Hour := by
    decide
  unfold SetupSchema
  simp only [requiredIndexes, plainIndex, ensureInOrder, hexp, List.nil_append,
    List.cons_append]

/-- Requesting in order returns the first failure and stops right after it. -/
theorem ensureInOrder_first_failure {σ : Type}
    (EnsureIndex : σ → Index → σ × Option String) (l : List Index) :
    ∀ (s : σ) (done : List Index) (i : Nat) (e : String),
      (outcomes EnsureIndex s l)[i]? = some (some e) →
      (∀ j, j < i → (outcomes EnsureIndex s l)[j]? = some none) →
      (ensureInOrder EnsureIndex s l done).err = some e ∧
        (ensureInOrder EnsureIndex s l done).requested = done ++ l.take (i + 1) := by
  induction l with
  | nil => intro s done i e hi _; simp [outcomes] at hi
  | cons ix rest ih =>
    intro s done i e hi hlt
    cases i with
    | zero =>
      simp only [outcomes, List.getElem?_cons_zero, Option.some.injEq] at hi
      cases hE : EnsureIndex s ix with
      | mk s2 r =>
        rw [hE] at hi
        simp only at hi
        subst hi
        simp [ensureInOrder, hE]
    | succ n =>
      have h0 := hlt 0 (Nat.succ_pos n)
      simp only [outcomes, List.getElem?_cons_zero, Option.some.injEq] at h0
      simp only [outcomes, List.getElem?_cons_succ] at hi
      cases hE : EnsureIndex s ix with
      | mk s2 r =>
        rw [hE] at h0 hi
        simp only at h0 hi
        subst h0
        have hrec := ih s2 (done ++ [ix]) n e hi (fun j hj => by
          have := hlt (j + 1) (Nat.succ_lt_succ hj)
          simp only [outcomes, List.getElem?_cons_succ, hE] at this
          exact this)
        simp only [ensureInOrder, hE]
        refine ⟨hrec.1, ?_⟩
        rw [hrec.2]
        simp

/-- Requesting in order returns nil exactly when no request fails, and has
then requested the whole list. -/
theorem ensureInOrder_success {σ : Type}
    (EnsureIndex : σ → Index → σ × Option String) (l : List Index) :
    ∀ (s : σ) (done : List Index),
      ((ensureInOrder EnsureIndex s l done).err = none ↔
        ∀ o ∈ outcomes EnsureIndex s l, o = none) ∧
      ((ensureInOrder EnsureIndex s l done).err = none →
        (ensureInOrder EnsureIndex s l done).requested = done ++ l) := by
  induction l with
  | nil => intro s done; simp [ensureInOrder, outcomes]
  | cons ix rest ih =>
    intro s done
    cases hE : EnsureIndex s ix with
    | mk s2 r =>
      cases r with
      | some err => simp [ensureInOrder, outcomes, hE]
      | none =>
        have hrec := ih s2 (done ++ [ix])
        simp only [ensureInOrder, outcomes, hE, List.mem_cons, forall_eq_or_imp,
          true_and]
        refine ⟨hrec.1, fun h => ?_⟩
        rw [hrec.2 h]
        simp

/-- C10: the indexes of `SetupSchema` are, in order, callid, callidaleg,
touser, fromuser, sourceip, destinationip, datetime, each not unique, built in
the background and not sparse, and only the datetime index expires, after 7
days, that is 168 hours. Whatever the backend answers, when the first failing
`EnsureIndex` is the one at position i, with error e, `SetupSchema` returns e
having requested the indexes up to that one and none after it; it returns nil
exactly when no request fails, having then requested all seven. -/
theorem SetupSchema_first_failure {σ : Type}
    (EnsureIndex : σ → Index → σ × Option String) (s : σ) :
    requiredIndexes.map (fun ix => ix.Key) =
      [["callid"], ["callidaleg"], ["touser"], ["fromuser"], ["sourceip"],
        ["destinationip"], ["datetime"]] ∧
    (∀ ix ∈ requiredIndexes,
      ix.Unique = false ∧ ix.Background = true ∧ ix.Sparse = false ∧
      ix.ExpireAfter = if ix.Key = ["datetime"] then 7 * (24 * Hour) else 0) ∧
    (∀ (i : Nat) (e : String),
      (outcomes EnsureIndex s requiredIndexes)[i]? = some (some e) →
      (∀ j, j < i → (outcomes EnsureIndex s requiredIndexes)[j]? = some none) →
      (SetupSchema EnsureIndex s).err = some e ∧
        (SetupSchema EnsureIndex s).requested = requiredIndexes.take (i + 1)) ∧
    ((SetupSchema EnsureIndex s).err = none ↔
      ∀ o ∈ outcomes EnsureIndex s requiredIndexes, o = none) ∧
    ((SetupSchema EnsureIndex s).err = none →
      (SetupSchema EnsureIndex s).requested = requiredIndexes) := by
  rw [SetupSchema_eq_ensureInOrder]
  refine ⟨by decide, by decide, ?_, ?_, ?_⟩
  · intro i e hi hlt
    have h := ensureInOrder_first_failure EnsureIndex requiredIndexes s [] i e hi hlt
    simpa using h
  · exact (ensureInOrder_success EnsureIndex requiredIndexes s []).1
  · intro h
    have h2 := (ensureInOrder_success EnsureIndex requiredIndexes s []).2 h
    simpa using h2

/-- C10 at an instance: a backend that counts the requests and refuses the
fourth one. -/
theorem SetupSchema_first_failure_witness :
    (SetupSchema refuseFourth 0).err = some "denied" ∧
      (SetupSchema refuseFourth 0).requested = requiredIndexes.take (3 + 1) :=
  (SetupSchema_first_failure refuseFourth 0).2.2.1 3 "denied" (by decide)
    (by decide)

end Flanders
